import Mathlib

/-!
Shallow embedding of the portfolio tracker calculation module
(`calculatePnL`, `calculateStats`, `calculateMonthlyPerformance`, and the
month-by-month replay loop inside `calculateMonthlyPortfolioHistory`).

Modelling choices:
- JavaScript numbers are modelled as rationals (ℚ); the floating point
  representation itself is out of scope.
- JavaScript objects keyed by symbol are modelled as insertion ordered
  association lists (`lookupA`, `setA`, `eraseA`); `setA` on a fresh key
  appends at the end, matching object key insertion order, and `eraseA`
  models `delete obj[key]` for the unique-key maps built here.
- The external historical price API (`getBatchHistoricalPrices`) is the
  Price Oracle Gateway of the specification; it is modelled as an oracle
  function from month key and ticker to an optional price.  The source
  maps an absent price to 0 via `priceMap[ticker] || 0`; the embedding
  mirrors this with `Option.getD 0`.
- Calendar arithmetic (JavaScript `Date`) is not statable; the month range
  is passed in as a list of (month key, month end timestamp) pairs and a
  trade's month bucket key is the stored `date` field, which callers fill
  with the derived year-month key.  Transactions are assumed already
  filtered to the target portfolio and sorted chronologically, as the
  source does before its replay loops.
-/

namespace PortfolioTracker

/-- Association list lookup, modelling `obj[key]` on a JavaScript object. -/
def lookupA {α : Type} : List (String × α) → String → Option α
  | [], _ => none
  | (k, v) :: rest, s => if k = s then some v else lookupA rest s

/-- Association list update, modelling `obj[key] = v`; a fresh key is appended
at the end, matching object key insertion order. -/
def setA {α : Type} : List (String × α) → String → α → List (String × α)
  | [], s, v => [(s, v)]
  | (k, w) :: rest, s, v => if k = s then (s, v) :: rest else (k, w) :: setA rest s v

/-- Association list removal, modelling `delete obj[key]`. -/
def eraseA {α : Type} : List (String × α) → String → List (String × α)
  | [], _ => []
  | (k, w) :: rest, s => if k = s then eraseA rest s else (k, w) :: eraseA rest s

/-- Operation kind of a trade: `Compra`, `Cierre` or `Venta` in the source. -/
inductive Side
  | compra
  | cierre
  | venta
deriving DecidableEq

/-- The `Trade` record of `src/types/trade.ts`.  The `date` field holds the
month bucket key derived from the trade date (JavaScript `Date` parsing is
out of scope). -/
structure Trade where
  id : String
  date : String
  time : String
  symbol : String
  quantity : ℚ
  price : ℚ
  side : Side
  commission : ℚ
  pnl : Option ℚ := none

/-- One entry of the `positions` map inside `calculatePnL`. -/
structure Pos where
  quantity : ℚ
  avgPrice : ℚ

/-- The `positions` map of `calculatePnL`, keyed by symbol. -/
abbrev PosMap := List (String × Pos)

/-- The position removal threshold `0.0001` used by `calculatePnL`. -/
def eps : ℚ := 0.0001

/-- One iteration of the `for` loop of `calculatePnL` (part_004 lines 8-85):
processes a single trade against the positions map and returns the updated
map together with the trade annotated with its `pnl`. -/
def stepPnL (st : PosMap) (t : Trade) : PosMap × Trade :=
  match t.side with
  | Side.compra =>
      let p := (lookupA st t.symbol).getD ⟨0, 0⟩
      if p.quantity < 0 then
        let pnl := (p.avgPrice - t.price) * |t.quantity| - t.commission
        let q := p.quantity + t.quantity
        (if |q| < eps then eraseA st t.symbol else setA st t.symbol ⟨q, p.avgPrice⟩,
         { t with pnl := some pnl })
      else
        let totalCost := p.quantity * p.avgPrice + t.quantity * t.price
        let q := p.quantity + t.quantity
        (setA st t.symbol ⟨q, totalCost / q⟩, { t with pnl := some (-t.commission) })
  | Side.cierre =>
      match lookupA st t.symbol with
      | some p =>
          let qc := |t.quantity|
          if 0 < p.quantity then
            let pnl := (t.price - p.avgPrice) * qc - t.commission
            let q := p.quantity - qc
            (if |q| < eps then eraseA st t.symbol else setA st t.symbol ⟨q, p.avgPrice⟩,
             { t with pnl := some pnl })
          else
            let pnl := (p.avgPrice - t.price) * qc - t.commission
            let q := p.quantity + qc
            (if |q| < eps then eraseA st t.symbol else setA st t.symbol ⟨q, p.avgPrice⟩,
             { t with pnl := some pnl })
      | none => (st, { t with pnl := some 0 })
  | Side.venta =>
      let p := (lookupA st t.symbol).getD ⟨0, 0⟩
      if 0 < p.quantity then
        let pnl := (t.price - p.avgPrice) * |t.quantity| - t.commission
        let q := p.quantity - |t.quantity|
        (if |q| < eps then eraseA st t.symbol else setA st t.symbol ⟨q, p.avgPrice⟩,
         { t with pnl := some pnl })
      else
        let currentValue := |p.quantity| * p.avgPrice
        let newValue := |t.quantity| * t.price
        let totalQuantity := |p.quantity| + |t.quantity|
        (setA st t.symbol ⟨p.quantity - |t.quantity|, (currentValue + newValue) / totalQuantity⟩,
         { t with pnl := some (-t.commission) })

/-- The full loop of `calculatePnL`: folds `stepPnL` over the trade list,
returning the final positions map and the annotated trades. -/
def runPnL : List Trade → PosMap → PosMap × List Trade
  | [], st => (st, [])
  | t :: ts, st =>
      let step := stepPnL st t
      let rest := runPnL ts step.1
      (rest.1, step.2 :: rest.2)

/-- `calculatePnL` (part_004 lines 4-88): the annotated trade list. -/
def calculatePnL (trades : List Trade) : List Trade := (runPnL trades []).2

/-- The positions map left behind by `calculatePnL` after processing every
trade (the Position Ledger's final active set). -/
def finalPositions (trades : List Trade) : PosMap := (runPnL trades []).1

/-- The `TradeStats` record of `src/types/trade.ts`. -/
structure TradeStats where
  totalPnL : ℚ
  totalTrades : ℕ
  winningTrades : ℕ
  losingTrades : ℕ
  winRate : ℚ
  averageWin : ℚ
  averageLoss : ℚ
  largestWin : ℚ
  largestLoss : ℚ
  averageTradePnL : ℚ

/-- The `t.pnl || 0` coercion used throughout the statistics code. -/
def pnlOf (t : Trade) : ℚ := t.pnl.getD 0

/-- The test `t.side === 'Cierre' || t.side === 'Venta'`. -/
def isClosingSide : Side → Bool
  | Side.cierre => true
  | Side.venta => true
  | Side.compra => false

/-- The filter of `calculateStats` (part_004 lines 173-184): closing side,
defined non-zero pnl, and the 3000 sanity cap.  Note there is no 0.01
threshold here. -/
def statsFilter (t : Trade) : Bool :=
  match t.pnl with
  | none => false
  | some v => isClosingSide t.side && decide (v ≠ 0) && decide (|v| ≤ 3000)

/-- The filter of `calculateMonthlyPerformance` (part_004 lines 223-237):
same as the statistics filter plus the `Math.abs(t.pnl) > 0.01` noise
threshold. -/
def monthlyFilter (t : Trade) : Bool :=
  match t.pnl with
  | none => false
  | some v =>
      isClosingSide t.side && decide (v ≠ 0) && decide (0.01 < |v|) && decide (|v| ≤ 3000)

/-- `Math.max(...)` over a pnl list; the guard for the empty case is kept in
`statsOfClosing`, mirroring the source ternaries. -/
def listMaxQ : List ℚ → ℚ
  | [] => 0
  | x :: xs => xs.foldl max x

/-- `Math.min(...)` over a pnl list. -/
def listMinQ : List ℚ → ℚ
  | [] => 0
  | x :: xs => xs.foldl min x

/-- The statistics computed by `calculateStats` (part_004 lines 186-216) from
its filtered `closingTrades` list. -/
def statsOfClosing (closingTrades : List Trade) : TradeStats :=
  let totalPnL := (closingTrades.map pnlOf).sum
  let winning := closingTrades.filter (fun t => decide (0 < pnlOf t))
  let losing := closingTrades.filter (fun t => decide (pnlOf t < 0))
  let totalTrades := closingTrades.length
  let winRate := if 0 < totalTrades then ((winning.length : ℚ) / (totalTrades : ℚ)) * 100 else 0
  let averageWin :=
    if 0 < winning.length then (winning.map pnlOf).sum / (winning.length : ℚ) else 0
  let averageLoss :=
    if 0 < losing.length then (losing.map pnlOf).sum / (losing.length : ℚ) else 0
  let largestWin := if 0 < winning.length then listMaxQ (winning.map pnlOf) else 0
  let largestLoss := if 0 < losing.length then listMinQ (losing.map pnlOf) else 0
  let averageTradePnL := if 0 < totalTrades then totalPnL / (totalTrades : ℚ) else 0
  ⟨totalPnL, totalTrades, winning.length, losing.length, winRate,
   averageWin, averageLoss, largestWin, largestLoss, averageTradePnL⟩

/-- The `closingTrades` list of `calculateStats`. -/
def statsClosing (trades : List Trade) : List Trade :=
  (calculatePnL trades).filter statsFilter

/-- `calculateStats` (part_004 lines 169-217). -/
def calculateStats (trades : List Trade) : TradeStats :=
  statsOfClosing (statsClosing trades)

/-- The `MonthlyPerformance` record of `src/types/trade.ts`. -/
structure MonthlyPerformance where
  month : String
  trades : ℕ
  pnl : ℚ

/-- The month bucket key of a trade; the source derives it from the trade
date with JavaScript `Date`, which the embedding stores directly. -/
def monthKeyOf (t : Trade) : String := t.date

/-- One `monthlyData` update of `calculateMonthlyPerformance`: create the
bucket if missing, then add one trade and its pnl. -/
def bumpBucket (acc : List (String × ℕ × ℚ)) (m : String) (v : ℚ) :
    List (String × ℕ × ℚ) :=
  match lookupA acc m with
  | none => setA acc m (1, v)
  | some nv => setA acc m (nv.1 + 1, nv.2 + v)

/-- Stable insertion into a month-sorted list, modelling the final
`sort by month` of `calculateMonthlyPerformance`. -/
def insertPerf (x : MonthlyPerformance) : List MonthlyPerformance → List MonthlyPerformance
  | [] => [x]
  | y :: ys => if y.month ≤ x.month then y :: insertPerf x ys else x :: y :: ys

/-- Insertion sort by month key. -/
def sortPerf (l : List MonthlyPerformance) : List MonthlyPerformance :=
  l.foldr insertPerf []

/-- `calculateMonthlyPerformance` (part_004 lines 219-261): both the trade
count and the pnl of every month bucket come from the filtered
`closingTrades` list only. -/
def calculateMonthlyPerformance (trades : List Trade) : List MonthlyPerformance :=
  let closingTrades := (calculatePnL trades).filter monthlyFilter
  let buckets := closingTrades.foldl
    (fun acc t => bumpBucket acc (monthKeyOf t) (pnlOf t)) []
  sortPerf (buckets.map (fun b => ⟨b.1, b.2.1, b.2.2⟩))

/-- A Firebase transaction as consumed by `calculateMonthlyPortfolioHistory`,
already filtered to the target portfolio; `idAsset` is the asset id with the
ticker fallback (`getAssetId(t.id_asset) || t.ticker`) and `assetType` is
`t.type || 'Accion'`. -/
structure FbTx where
  id : String
  ticker : String
  amount : ℚ
  price : ℚ
  createdTime : ℕ
  operation : Side
  idAsset : String
  assetType : String

/-- One entry of the `currentPositions` map inside
`calculateMonthlyPortfolioHistory` (the unused `transactions` log is
omitted). -/
structure MPos where
  ticker : String
  shares : ℚ
  totalCost : ℚ
  isShort : Bool
  assetType : String

/-- The `0.001` position threshold used by the monthly replay. -/
def mEps : ℚ := 0.001

/-- One transaction applied to a position inside the monthly replay loop
(part_004 lines 684-739). -/
def stepMonthly (p : MPos) (t : FbTx) : MPos :=
  match t.operation with
  | Side.compra =>
      if p.shares < 0 then
        let sharesToClose := min |p.shares| t.amount
        let avgCost := if 0 < |p.shares| then p.totalCost / |p.shares| else 0
        let shares1 := p.shares + sharesToClose
        let cost1 := p.totalCost - sharesToClose * avgCost
        if sharesToClose < t.amount then
          let remaining := t.amount - sharesToClose
          { p with shares := shares1 + remaining,
                   totalCost := cost1 + remaining * t.price, isShort := false }
        else if |shares1| < mEps then
          { p with shares := shares1, totalCost := 0, isShort := false }
        else
          { p with shares := shares1, totalCost := cost1 }
      else
        { p with totalCost := p.totalCost + t.amount * t.price,
                 shares := p.shares + t.amount, isShort := false }
  | Side.venta =>
      if 0 < p.shares then
        let sharesToClose := min p.shares t.amount
        let avgCost := if 0 < p.shares then p.totalCost / p.shares else 0
        let shares1 := p.shares - sharesToClose
        let cost1 := p.totalCost - sharesToClose * avgCost
        if sharesToClose < t.amount then
          let remaining := t.amount - sharesToClose
          { p with shares := shares1 - remaining,
                   totalCost := cost1 + remaining * t.price, isShort := true }
        else if |shares1| < mEps then
          { p with shares := shares1, totalCost := 0, isShort := false }
        else
          { p with shares := shares1, totalCost := cost1 }
      else
        { p with totalCost := p.totalCost + t.amount * t.price,
                 shares := p.shares - t.amount, isShort := true }
  | Side.cierre => { p with shares := 0, totalCost := 0, isShort := false }

/-- The per-month replay of `calculateMonthlyPortfolioHistory`: every
transaction with timestamp at most the month end is applied, from an empty
starting state, to a fresh `currentPositions` map. -/
def replayUpTo (txs : List FbTx) (monthEnd : ℕ) : List (String × MPos) :=
  (txs.filter (fun t => t.createdTime ≤ monthEnd)).foldl
    (fun acc t =>
      let p := (lookupA acc t.idAsset).getD ⟨t.ticker, 0, 0, false, t.assetType⟩
      setA acc t.idAsset (stepMonthly p t))
    []

/-- The `openPositions` filter (part_004 line 748). -/
def openPositions (txs : List FbTx) (monthEnd : ℕ) : List (String × MPos) :=
  (replayUpTo txs monthEnd).filter (fun kv => decide (mEps < |kv.2.shares|))

/-- The `MonthlyAsset` record of the source. -/
structure MonthlyAsset where
  asset : String
  id_asset : String
  shares : ℚ
  avg_price : ℚ
  price_close : ℚ
  value : ℚ
  profit_loss : ℚ

/-- The snapshot entry built for a priced open position (part_004 lines
771-792). -/
def mkAsset (id : String) (p : MPos) (priceClose : ℚ) : MonthlyAsset :=
  let avgPrice := p.totalCost / |p.shares|
  let value := |p.shares| * priceClose
  let profitLoss :=
    if p.isShort then (avgPrice - priceClose) * |p.shares|
    else (priceClose - avgPrice) * |p.shares|
  ⟨p.ticker, id, |p.shares|, avgPrice, priceClose, value, profitLoss⟩

/-- The `monthlyAssets` list of one month: open positions whose oracle price
is present and positive, each valued at the month-end close; an absent price
is read as 0 (`priceMap[ticker] || 0`) and excluded by the `> 0` test. -/
def monthAssets (oracle : String → String → Option ℚ) (txs : List FbTx)
    (m : String) (monthEnd : ℕ) : List MonthlyAsset :=
  (openPositions txs monthEnd).filterMap (fun kv =>
    let priceClose := (oracle m kv.2.ticker).getD 0
    if 0 < priceClose then some (mkAsset kv.1 kv.2 priceClose) else none)

/-- The `MonthlyPortfolioHistory` record of the source. -/
structure MonthlySnapshotE where
  month : String
  assets : List MonthlyAsset
  portfolio_value : ℚ
  portfolio_pl : ℚ

/-- The month loop of `calculateMonthlyPortfolioHistory` (part_004 lines
647-818): one snapshot per month with a non-empty asset list, aggregates
summed over the included assets only.  The month range is supplied as
(month key, month end timestamp) pairs, as produced by
`generateMonthRange`. -/
def monthlyHistory (oracle : String → String → Option ℚ) (txs : List FbTx)
    (months : List (String × ℕ)) : List MonthlySnapshotE :=
  months.filterMap (fun me =>
    let assets := monthAssets oracle txs me.1 me.2
    if assets.isEmpty then none
    else some ⟨me.1, assets, (assets.map MonthlyAsset.value).sum,
               (assets.map MonthlyAsset.profit_loss).sum⟩)

/-! Concrete inputs used by the claim theorems. -/

/-- Sell 5 at 50 then Buy 8 at 40, zero commissions, one instrument. -/
def tradesShortCover : List Trade :=
  [⟨"t1", "2024-01", "10:00:00", "X", -5, 50, Side.venta, 0, none⟩,
   ⟨"t2", "2024-01", "11:00:00", "X", 8, 40, Side.compra, 0, none⟩]

/-- The same two transactions in the form consumed by the monthly replay. -/
def txsShortCover : List FbTx :=
  [⟨"t1", "X", 5, 50, 1, Side.venta, "X", "Accion"⟩,
   ⟨"t2", "X", 8, 40, 2, Side.compra, "X", "Accion"⟩]

/-- Buy 10 at 100 then a Close carrying quantity 5 at 150, zero
commissions. -/
def tradesPartialClose : List Trade :=
  [⟨"t1", "2024-01", "10:00:00", "X", 10, 100, Side.compra, 0, none⟩,
   ⟨"t2", "2024-01", "11:00:00", "X", -5, 150, Side.cierre, 0, none⟩]

/-- A single Buy of 0.00005 shares, below the removal epsilon. -/
def tradesTinyBuy : List Trade :=
  [⟨"t1", "2024-01", "10:00:00", "X", 1/20000, 10, Side.compra, 0, none⟩]

/-- Buy 10 at 100 (commission 1) then Close 10 at 150 (commission 1). -/
def tradesBuyClose : List Trade :=
  [⟨"t1", "2024-01", "10:00:00", "X", 10, 100, Side.compra, 1, none⟩,
   ⟨"t2", "2024-01", "11:00:00", "X", -10, 150, Side.cierre, 1, none⟩]

/-- Buy 1 at 100 then Sell 1 at 100.005: the sale realizes 0.005, inside the
(0, 0.01] noise band. -/
def tradesTinyPnL : List Trade :=
  [⟨"t1", "2024-01", "10:00:00", "X", 1, 100, Side.compra, 0, none⟩,
   ⟨"t2", "2024-01", "11:00:00", "X", -1, 100.005, Side.venta, 0, none⟩]

/-- The sale trade of `tradesTinyPnL` as annotated by `calculatePnL`. -/
def tradeTinyPnLOut : Trade :=
  ⟨"t2", "2024-01", "11:00:00", "X", -1, 100.005, Side.venta, 0, some (1/200)⟩

/-- Buy 1 at 100 then Sell 1 at 3200: the sale realizes 3100, above the 3000
sanity cap. -/
def tradesBigWin : List Trade :=
  [⟨"t1", "2024-01", "10:00:00", "X", 1, 100, Side.compra, 0, none⟩,
   ⟨"t2", "2024-02", "11:00:00", "X", -1, 3200, Side.venta, 0, none⟩]

/-- One Buy of 5 shares of AAPL at 10, as a Firebase transaction. -/
def txsOneBuy : List FbTx :=
  [⟨"f1", "AAPL", 5, 10, 50, Side.compra, "a1", "Accion"⟩]

/-- A price oracle that never finds a price. -/
def oracleNoneQ : String → String → Option ℚ := fun _ _ => none

/-- A price oracle that always returns 20. -/
def oracleTwentyQ : String → String → Option ℚ := fun _ _ => some 20

/-- The snapshot produced for `txsOneBuy` under `oracleTwentyQ`. -/
def snapOneBuy : MonthlySnapshotE :=
  ⟨"2024-01", [⟨"AAPL", "a1", 5, 10, 20, 100, 50⟩], 100, 50⟩

/-- Hypothesis on a trade used by the amended epsilon invariant: the traded
quantity has magnitude at least the removal epsilon, and buys carry a
positive quantity (as the normalizer guarantees). -/
def QtyOk (t : Trade) : Prop :=
  eps ≤ |t.quantity| ∧ (t.side = Side.compra → 0 < t.quantity)

/-- Invariant of the ledger positions map: every retained position has at
least epsilon shares in magnitude. -/
def EpsInv (st : PosMap) : Prop :=
  ∀ s p, lookupA st s = some p → eps ≤ |p.quantity|


/-! Helper lemmas about the association list operations and the epsilon
invariant of the ledger. -/

theorem lookupA_setA {α : Type} (st : List (String × α)) (s x : String) (v : α) :
    lookupA (setA st s v) x = if x = s then some v else lookupA st x := by
  induction st with
  | nil =>
      by_cases h : x = s
      · simp [setA, lookupA, h]
      · simp [setA, lookupA, h, Ne.symm h]
  | cons kv rest ih =>
      obtain ⟨k, w⟩ := kv
      by_cases hk : k = s
      · subst hk
        by_cases hx : x = k
        · subst hx
          simp [setA, lookupA]
        · simp [setA, lookupA, hx, Ne.symm hx]
      · by_cases hx : k = x
        · subst hx
          simp [setA, lookupA, hk]
        · simp [setA, lookupA, hk, hx, ih]

theorem lookupA_eraseA {α : Type} (st : List (String × α)) (s x : String) :
    lookupA (eraseA st s) x = if x = s then none else lookupA st x := by
  induction st with
  | nil => simp [eraseA, lookupA]
  | cons kv rest ih =>
      obtain ⟨k, w⟩ := kv
      by_cases hk : k = s
      · subst hk
        by_cases hx : x = k
        · subst hx
          simp [eraseA, lookupA, ih]
        · simp [eraseA, lookupA, hx, Ne.symm hx, ih]
      · by_cases hx : k = x
        · subst hx
          simp [eraseA, lookupA, hk]
        · simp [eraseA, lookupA, hk, hx, ih]

theorem epsInv_setA (st : PosMap) (s : String) (p : Pos) (hst : EpsInv st)
    (hp : eps ≤ |p.quantity|) : EpsInv (setA st s p) := by
  intro x q hq
  rw [lookupA_setA] at hq
  split at hq
  · cases hq
    exact hp
  · exact hst x q hq

theorem epsInv_eraseA (st : PosMap) (s : String) (hst : EpsInv st) :
    EpsInv (eraseA st s) := by
  intro x q hq
  rw [lookupA_eraseA] at hq
  split at hq
  · cases hq
  · exact hst x q hq

theorem stepPnL_epsInv (st : PosMap) (t : Trade) (hst : EpsInv st) (ht : QtyOk t) :
    EpsInv (stepPnL st t).1 := by
  obtain ⟨hq, hc⟩ := ht
  cases hside : t.side with
  | compra =>
      simp only [stepPnL, hside]
      split
      · split
        · exact epsInv_eraseA st t.symbol hst
        · next h2 => exact epsInv_setA st t.symbol _ hst (not_lt.mp h2)
      · next h1 =>
          have h0 : 0 ≤ ((lookupA st t.symbol).getD ⟨0, 0⟩).quantity := not_lt.mp h1
          have htq : 0 < t.quantity := hc hside
          have hq2 : eps ≤ t.quantity := by rwa [abs_of_pos htq] at hq
          refine epsInv_setA st t.symbol _ hst ?_
          refine le_trans ?_ (le_abs_self _)
          simp only []
          linarith
  | cierre =>
      cases hlk : lookupA st t.symbol with
      | some p =>
          simp only [stepPnL, hside, hlk]
          split
          · split
            · exact epsInv_eraseA st t.symbol hst
            · next h2 => exact epsInv_setA st t.symbol _ hst (not_lt.mp h2)
          · split
            · exact epsInv_eraseA st t.symbol hst
            · next h2 => exact epsInv_setA st t.symbol _ hst (not_lt.mp h2)
      | none =>
          simp only [stepPnL, hside, hlk]
          exact hst
  | venta =>
      simp only [stepPnL, hside]
      split
      · split
        · exact epsInv_eraseA st t.symbol hst
        · next h2 => exact epsInv_setA st t.symbol _ hst (not_lt.mp h2)
      · next h1 =>
          have h0 : ((lookupA st t.symbol).getD ⟨0, 0⟩).quantity ≤ 0 := not_lt.mp h1
          have habs : eps ≤ |t.quantity| := hq
          refine epsInv_setA st t.symbol _ hst ?_
          have hle : ((lookupA st t.symbol).getD ⟨0, 0⟩).quantity - |t.quantity| ≤ -eps := by
            linarith
          refine le_trans ?_ (neg_le_abs _)
          simp only []
          linarith

theorem runPnL_epsInv (trades : List Trade) :
    ∀ st : PosMap, EpsInv st → (∀ t ∈ trades, QtyOk t) → EpsInv (runPnL trades st).1 := by
  induction trades with
  | nil =>
      intro st hst _
      simpa [runPnL] using hst
  | cons t ts ih =>
      intro st hst hall
      simp only [runPnL]
      exact ih (stepPnL st t).1 (stepPnL_epsInv st t hst (hall t (by simp)))
        (fun u hu => hall u (by simp [hu]))

/-! Claim theorems. -/

/-- Claim C1: the specification requires a Buy against a short to realize
(short avg cost − buy price) × min(buy qty, |short qty|) − commission and to
open any residual long at the buy price.  `calculatePnL` instead multiplies
by the full buy quantity and keeps the stale short average cost: on Sell 5
at 50 then Buy 8 at 40 (zero commissions) the code realizes 80 rather than
50 and leaves long 3 at average cost 50 rather than 40. -/
theorem compra_cover_overrealizes :
    (calculatePnL tradesShortCover).map Trade.pnl = [some 0, some 80] ∧
    lookupA (finalPositions tradesShortCover) "X" = some ⟨3, 50⟩ := by
  norm_num [calculatePnL, finalPositions, runPnL, stepPnL, lookupA, setA, eraseA, eps,
            tradesShortCover]

/-- Claim C2: the Position Ledger and the Monthly History Reconstructor are
claimed to run the identical position-update algorithm, yet on the same two
transactions (Sell 5 at 50 then Buy 8 at 40) the ledger leaves long 3 at
average cost 50 while the monthly replay leaves long 3 at total cost 120,
that is average cost 40. -/
theorem ledger_monthly_replay_divergence :
    lookupA (finalPositions tradesShortCover) "X" = some ⟨3, 50⟩ ∧
    lookupA (replayUpTo txsShortCover 100) "X" = some ⟨"X", 3, 120, false, "Accion"⟩ ∧
    (120 : ℚ) / 3 = 40 ∧ (50 : ℚ) ≠ 40 := by
  norm_num [finalPositions, runPnL, stepPnL, lookupA, setA, eraseA, eps, tradesShortCover,
            replayUpTo, stepMonthly, mEps, txsShortCover]

/-- Claim C3: a Close is specified to fully close the position regardless of
sign, realizing over the whole position.  `calculatePnL` instead closes only
the quantity carried by the Close transaction: Buy 10 at 100 then Close with
quantity 5 at 150 realizes 250 rather than 500 and retains a long 5 position
instead of removing it. -/
theorem cierre_closes_only_trade_quantity :
    (calculatePnL tradesPartialClose).map Trade.pnl = [some 0, some 250] ∧
    lookupA (finalPositions tradesPartialClose) "X" = some ⟨5, 100⟩ := by
  norm_num [calculatePnL, finalPositions, runPnL, stepPnL, lookupA, setA, eraseA, eps,
            tradesPartialClose]

/-- Claim C4 counterexample: a single Buy of 0.00005 shares leaves a retained
position whose share magnitude is below the removal epsilon, because the
opening branches of `calculatePnL` never apply the epsilon check. -/
theorem subEps_position_retained :
    lookupA (finalPositions tradesTinyBuy) "X" = some ⟨1/20000, 10⟩ ∧
    |(1/20000 : ℚ)| < eps := by
  norm_num [finalPositions, runPnL, stepPnL, lookupA, setA, eraseA, eps, tradesTinyBuy,
            abs_lt, abs_le, lt_abs]

/-- Claim C4 (amended): for every transaction sequence whose trades all move
at least epsilon shares in magnitude, with buys carrying positive quantity
as the normalizer guarantees, the ledger retains no position with fewer than
epsilon shares in magnitude. -/
theorem ledger_no_subEps_position (trades : List Trade)
    (h : ∀ t ∈ trades, QtyOk t) :
    ∀ s p, lookupA (finalPositions trades) s = some p → eps ≤ |p.quantity| := by
  have hbase : EpsInv ([] : PosMap) := by
    intro s p hp
    simp [lookupA] at hp
  exact runPnL_epsInv trades [] hbase h

/-- Witness for the amended claim C4 theorem at a concrete one-buy input. -/
theorem ledger_no_subEps_position_witness :
    eps ≤ |(Pos.mk 1 10).quantity| := by
  refine ledger_no_subEps_position
    [⟨"t1", "2024-01", "10:00:00", "X", 1, 10, Side.compra, 0, none⟩] ?_ "X" ⟨1, 10⟩ ?_
  · intro t ht
    simp only [List.mem_singleton] at ht
    subst ht
    exact ⟨by norm_num [eps, le_abs], fun _ => by norm_num⟩
  · norm_num [finalPositions, runPnL, stepPnL, lookupA, setA, eraseA, eps]

/-- Claim C5: every snapshot emitted by the monthly history loop has a
non-empty asset list containing only instruments with a positive oracle
price, and its aggregates are sums over exactly those instruments; a month
in which no open instrument has a positive oracle price contributes no
assets and no snapshot at all. -/
theorem monthly_history_excludes_unpriced :
    (∀ (oracle : String → String → Option ℚ) (txs : List FbTx)
        (months : List (String × ℕ)) (e : MonthlySnapshotE),
        e ∈ monthlyHistory oracle txs months →
          e.assets ≠ [] ∧ (∀ a ∈ e.assets, 0 < a.price_close) ∧
          e.portfolio_value = (e.assets.map MonthlyAsset.value).sum ∧
          e.portfolio_pl = (e.assets.map MonthlyAsset.profit_loss).sum) ∧
    (∀ (oracle : String → String → Option ℚ) (txs : List FbTx) (m : String) (mEnd : ℕ),
        (∀ kv ∈ openPositions txs mEnd, (oracle m kv.2.ticker).getD 0 ≤ 0) →
          monthAssets oracle txs m mEnd = [] ∧
          monthlyHistory oracle txs [(m, mEnd)] = []) := by
  constructor
  · intro oracle txs months e he
    rw [monthlyHistory, List.mem_filterMap] at he
    obtain ⟨me, _, hsome⟩ := he
    dsimp only at hsome
    by_cases hempty : (monthAssets oracle txs me.1 me.2).isEmpty = true
    · rw [if_pos hempty] at hsome
      cases hsome
    · rw [if_neg hempty] at hsome
      have he2 := Option.some.inj hsome
      subst he2
      refine ⟨?_, ?_, rfl, rfl⟩
      · intro hnil
        have hnil2 : monthAssets oracle txs me.1 me.2 = [] := hnil
        exact hempty (by simp [hnil2])
      intro a ha
      rw [monthAssets, List.mem_filterMap] at ha
      obtain ⟨kv, _, hif⟩ := ha
      dsimp only at hif
      by_cases hpc : 0 < (oracle me.1 kv.2.ticker).getD 0
      · rw [if_pos hpc] at hif
        have ha2 := Option.some.inj hif
        subst ha2
        simpa [mkAsset] using hpc
      · rw [if_neg hpc] at hif
        cases hif
  · intro oracle txs m mEnd hall
    have hassets : monthAssets oracle txs m mEnd = [] := by
      rw [monthAssets, List.filterMap_eq_nil_iff]
      intro kv hkv
      dsimp only
      rw [if_neg (not_lt.mpr (hall kv hkv))]
    refine ⟨hassets, ?_⟩
    rw [monthlyHistory]
    simp [hassets]

/-- Witness for claim C5 at concrete inputs: with a price of 20 the one-buy
history consists of the expected snapshot whose asset list is non-empty, and
with no price the month produces no assets. -/
theorem monthly_history_excludes_unpriced_witness :
    snapOneBuy.assets ≠ [] ∧ monthAssets oracleNoneQ txsOneBuy "2024-01" 100 = [] := by
  constructor
  · refine (monthly_history_excludes_unpriced.1 oracleTwentyQ txsOneBuy
      [("2024-01", 100)] snapOneBuy ?_).1
    have h1 : replayUpTo txsOneBuy 100 = [("a1", ⟨"AAPL", 5, 50, false, "Accion"⟩)] := by
      norm_num [replayUpTo, stepMonthly, lookupA, setA, txsOneBuy]
    have h2 : openPositions txsOneBuy 100 = [("a1", ⟨"AAPL", 5, 50, false, "Accion"⟩)] := by
      rw [openPositions, h1]
      norm_num [mEps, abs_lt, lt_abs]
    have h3 : monthAssets oracleTwentyQ txsOneBuy "2024-01" 100
        = [⟨"AAPL", "a1", 5, 10, 20, 100, 50⟩] := by
      rw [monthAssets, h2]
      norm_num [mkAsset, oracleTwentyQ, List.filterMap_cons, List.filterMap_nil,
                abs_lt, lt_abs, abs_le]
    have h4 : monthlyHistory oracleTwentyQ txsOneBuy [("2024-01", 100)] = [snapOneBuy] := by
      rw [monthlyHistory]
      norm_num [List.filterMap_cons, h3, snapOneBuy]
    rw [h4]
    simp
  · exact (monthly_history_excludes_unpriced.2 oracleNoneQ txsOneBuy "2024-01" 100
      (fun kv _ => by simp [oracleNoneQ])).1

/-- Claim C6: a Close on an instrument with no tracked position is a benign
no-op: `stepPnL` leaves the positions map unchanged and annotates the trade
with pnl 0. -/
theorem cierre_no_position_noop (st : PosMap) (t : Trade)
    (hside : t.side = Side.cierre) (hnone : lookupA st t.symbol = none) :
    stepPnL st t = (st, { t with pnl := some 0 }) := by
  simp [stepPnL, hside, hnone]

/-- Witness for claim C6 at a concrete input. -/
theorem cierre_no_position_noop_witness :
    stepPnL [] ⟨"t1", "2024-01", "10:00:00", "X", -5, 10, Side.cierre, 0, none⟩ =
      ([], ⟨"t1", "2024-01", "10:00:00", "X", -5, 10, Side.cierre, 0, some 0⟩) :=
  cierre_no_position_noop [] _ rfl rfl

/-- Claim C7 counterexample: a realized event of 0.005 — which the claim says
must be excluded from all statistics — is counted by `calculateStats`, which
has no 0.01 noise threshold. -/
theorem stats_include_negligible_pnl :
    (calculateStats tradesTinyPnL).totalTrades = 1 ∧
    (calculateStats tradesTinyPnL).totalPnL = 1/200 ∧
    (0 : ℚ) < |(1/200 : ℚ)| ∧ |(1/200 : ℚ)| ≤ 0.01 := by
  norm_num [calculateStats, statsClosing, statsOfClosing, statsFilter, isClosingSide,
            pnlOf, listMaxQ, listMinQ, calculatePnL, runPnL, stepPnL, lookupA, setA,
            eraseA, eps, tradesTinyPnL, abs_lt, abs_le, lt_abs]

theorem statsFilter_eq_true_iff (t : Trade) :
    statsFilter t = true ↔
      (t.side = Side.cierre ∨ t.side = Side.venta) ∧
        ∃ v : ℚ, t.pnl = some v ∧ v ≠ 0 ∧ |v| ≤ 3000 := by
  cases hp : t.pnl <;> cases hs : t.side <;>
    simp [statsFilter, isClosingSide, hp, hs]

/-- Claim C7 (amended): `calculateStats` includes an annotated trade exactly
when its side is Cierre or Venta and its pnl is defined, non-zero, and at
most 3000 in magnitude; there is no 0.01 noise threshold in the statistics
filter (the threshold exists only in the monthly performance filter). -/
theorem stats_closing_mem_iff (trades : List Trade) (t : Trade) :
    t ∈ statsClosing trades ↔
      t ∈ calculatePnL trades ∧ (t.side = Side.cierre ∨ t.side = Side.venta) ∧
        ∃ v : ℚ, t.pnl = some v ∧ v ≠ 0 ∧ |v| ≤ 3000 := by
  rw [statsClosing, List.mem_filter, statsFilter_eq_true_iff]

/-- Witness for the amended claim C7 theorem: the 0.005 sale event is a
member of the statistics closing list. -/
theorem stats_closing_mem_iff_witness :
    tradeTinyPnLOut ∈ statsClosing tradesTinyPnL := by
  refine (stats_closing_mem_iff tradesTinyPnL tradeTinyPnLOut).mpr ⟨?_, ?_, ?_⟩
  · norm_num [calculatePnL, runPnL, stepPnL, lookupA, setA, eraseA, eps, tradesTinyPnL,
              tradeTinyPnLOut, List.mem_cons]
  · right
    rfl
  · exact ⟨1/200, rfl, by norm_num, by norm_num [abs_le]⟩

/-- Claim C8: Buy 10 at 100 with commission 1 then Close 10 at 150 with
commission 1 realizes exactly 499 on the closing trade; the statistics
report total pnl 499, one winning trade, and win rate 100. -/
theorem buy_then_close_scenario :
    (calculatePnL tradesBuyClose).map Trade.pnl = [some (-1), some 499] ∧
    (calculateStats tradesBuyClose).totalPnL = 499 ∧
    (calculateStats tradesBuyClose).winningTrades = 1 ∧
    (calculateStats tradesBuyClose).winRate = 100 := by
  norm_num [calculateStats, statsClosing, statsOfClosing, statsFilter, isClosingSide,
            pnlOf, listMaxQ, listMinQ, calculatePnL, runPnL, stepPnL, lookupA, setA,
            eraseA, eps, tradesBuyClose]

/-- Claim C9: an input that yields no qualifying realized events produces the
all-zero statistics record — in particular win rate, average win, average
loss and average trade pnl are all 0 — with every division guarded. -/
theorem no_qualifying_events_zero_stats (trades : List Trade)
    (h : statsClosing trades = []) :
    calculateStats trades = ⟨0, 0, 0, 0, 0, 0, 0, 0, 0, 0⟩ := by
  rw [calculateStats, h]
  rfl

/-- Witness for claim C9 at the empty input. -/
theorem no_qualifying_events_zero_stats_witness :
    calculateStats [] = ⟨0, 0, 0, 0, 0, 0, 0, 0, 0, 0⟩ :=
  no_qualifying_events_zero_stats [] rfl

/-- Claim C10: both the statistics filter and the monthly performance filter
silently exclude every realized event whose pnl magnitude exceeds 3000, so a
sequence realizing a 3100 gain produces all-zero statistics and no monthly
buckets at all. -/
theorem pnl_cap_excludes_large_trades :
    (∀ t : Trade, statsFilter t = true → |pnlOf t| ≤ 3000) ∧
    (∀ t : Trade, monthlyFilter t = true → |pnlOf t| ≤ 3000) ∧
    calculateStats tradesBigWin = ⟨0, 0, 0, 0, 0, 0, 0, 0, 0, 0⟩ ∧
    calculateMonthlyPerformance tradesBigWin = [] := by
  refine ⟨?_, ?_, ?_, ?_⟩
  · intro t h
    cases hp : t.pnl with
    | none => simp [statsFilter, hp] at h
    | some v =>
        simp only [statsFilter, hp, Bool.and_eq_true, decide_eq_true_eq] at h
        simpa [pnlOf, hp] using h.2
  · intro t h
    cases hp : t.pnl with
    | none => simp [monthlyFilter, hp] at h
    | some v =>
        simp only [monthlyFilter, hp, Bool.and_eq_true, decide_eq_true_eq] at h
        simpa [pnlOf, hp] using h.2
  · norm_num [calculateStats, statsClosing, statsOfClosing, statsFilter, isClosingSide,
              pnlOf, listMaxQ, listMinQ, calculatePnL, runPnL, stepPnL, lookupA, setA,
              eraseA, eps, tradesBigWin, abs_le]
  · norm_num [calculateStats, statsClosing, statsOfClosing, statsFilter, isClosingSide,
              pnlOf, listMaxQ, listMinQ, calculatePnL, runPnL, stepPnL, lookupA, setA,
              eraseA, eps, tradesBigWin, calculateMonthlyPerformance, monthlyFilter,
              bumpBucket, sortPerf, insertPerf, monthKeyOf, abs_le, lt_abs]

/-- Witness for claim C10: both filters applied to concrete included
events. -/
theorem pnl_cap_excludes_large_trades_witness :
    |pnlOf ⟨"w1", "2024-01", "10:00:00", "X", -10, 150, Side.cierre, 1, some 499⟩| ≤ 3000 ∧
    |pnlOf ⟨"w2", "2024-01", "10:00:00", "X", -10, 150, Side.cierre, 1, some 2999⟩| ≤ 3000 := by
  constructor
  · exact pnl_cap_excludes_large_trades.1 _
      (by norm_num [statsFilter, isClosingSide, abs_le])
  · exact pnl_cap_excludes_large_trades.2.1 _
      (by norm_num [monthlyFilter, isClosingSide, abs_le, lt_abs])

end PortfolioTracker
